import Mathlib

/-!
# Verification of the NGNX.DATA.FileProxy persistence core (src/index.js)

Shallow embedding of the file-locking / disk-I/O core of the `FileProxy`
class.  The proxy's mutable fields (`_release`, `_lockowner`, the target
file's content) together with the on-disk advisory lock marker form a
state record; each method of the class becomes a state-passing function
translated line by line from `src/index.js`.

External collaborators are abstracted at their call boundary only:
  * `proper-lockfile` — `checkSync` observes the marker; `lockSync`
    creates a marker owned by this process and returns a release
    capability; invoking the release capability removes the marker.
  * node's `crypto` — `createCipher`/`createDecipher` pipelines are a
    pair of function parameters (`CryptoLib`); the round-trip contract
    documented by node is taken as a hypothesis where needed.
  * OS-level hide (chflags / attrib / dot-rename) — recorded as a
    `hid` action in an observation trace; the `emit` calls and the
    `fs.writeFileSync` call are recorded in the same trace so that the
    ordering of lock / write / unlock steps is observable.
  * the filesystem directory tree used by `mkdirp` — a list of readable
    directory paths (see the `mkdirp` section at the end).
-/

namespace FileProxy

/-- Which process created the advisory lock marker currently on disk. -/
inductive Holder where
  | self  : Holder
  | other : Holder
  deriving DecidableEq, Repr

/-- Observable actions, in the order they happen: the `filelock` /
`fileunlock` events emitted by `lock`/`unlock`, the OS-level hide side
effect, the `console.warn` calls, and the `fs.writeFileSync` call. -/
inductive Action where
  | filelock   : Action
  | fileunlock : Action
  | hid        : Action
  | warned     : Action
  | wrote      : String → Action
  deriving DecidableEq, Repr

/-- The mutable state of one `FileProxy` instance together with the piece
of the filesystem it touches (the target file's content and the advisory
lock marker `proper-lockfile` keeps next to it).

* `dbfile`   — the resolved target path (config `file`).
* `munge`    — config `encryptionKey` (`null` when absent).
* `cipher`   — config `cipher`, default `aes-256-cbc`.
* `autolock` — `_autolock`, config `autolock`, default `true`.
* `hidelock` — config `hideLockedFile`, default `true`.
* `release`  — whether `_release` currently holds a release capability.
* `lockowner`— the `_lockowner` flag.
* `marker`   — the on-disk lock marker and who created it (`none` = no
  lock marker, i.e. `checkSync` reports unlocked).
* `content`  — the target file's content; `none` models "does not exist
  or is not readable" (`NGN.util.pathReadable` false).
* `trace`    — observation log of emitted events and side effects. -/
structure State where
  dbfile    : String
  munge     : Option String
  cipher    : String
  autolock  : Bool
  hidelock  : Bool
  release   : Bool
  lockowner : Bool
  marker    : Option Holder
  content   : Option String
  trace     : List Action
  deriving DecidableEq, Repr

/-- `get locked ()` — `filelocker.checkSync(this.dbfile)`, any failure
treated as "not locked": true iff a lock marker exists, whoever made it. -/
def locked (s : State) : Bool :=
  s.marker.isSome

/-- `get isLockOwner ()` — returns the `_lockowner` flag. -/
def isLockOwner (s : State) : Bool :=
  s.lockowner

/-- `emit(evt)` — append the event to the observation trace. -/
def emit (s : State) (a : Action) : State :=
  { s with trace := s.trace ++ [a] }

/-- `hide(absolutePath)` called on `this.dbfile`: warns and does nothing
when the path is not readable; otherwise performs the OS-dispatched hide
(chflags / attrib / dot-rename), recorded as a single `hid` action. -/
def hide (s : State) : State :=
  if s.content.isNone then emit s .warned else emit s .hid

/-- `lock()` — returns immediately if already locked (by any owner);
otherwise `lockSync` creates the marker and stores the release
capability, `_lockowner` is set, the file is hidden when `hideLockedFile`
is on, and `filelock` is emitted. -/
def lock (s : State) : State :=
  if locked s then s
  else
    let s1 := { s with release := true, marker := some .self, lockowner := true }
    let s2 := if s1.hidelock then hide s1 else s1
    emit s2 .filelock

/-- `unlock()` — no-op when not locked; warns and no-ops when locked but
`isLockOwner` is false; otherwise invokes the release capability when one
is held (removing the marker and emitting `fileunlock`) and then sets
`_release = null`.  Note the method never touches `_lockowner`. -/
def unlock (s : State) : State :=
  if !locked s then s
  else if !isLockOwner s then emit s .warned
  else
    let s1 := if s.release then emit { s with marker := none } .fileunlock else s
    { s1 with release := false }

/-- node's `crypto` cipher pipelines, as used by the source.
`cipherHex alg pw data` is `createCipher(alg, pw)` followed by
`update(data, 'utf8', 'hex') + final('hex')`; `decipherHex alg pw data`
is `createDecipher(alg, pw)` followed by
`update(data, 'hex', 'utf8') + final('utf8')`.  The password argument is
an `Option` because the source passes `this.munge` (possibly `null`)
straight through. -/
structure CryptoLib where
  cipherHex   : String → Option String → String → String
  decipherHex : String → Option String → String → String

/-- `encrypt(data)` — encrypt with the configured `cipher` and `munge`. -/
def encrypt (C : CryptoLib) (s : State) (data : String) : String :=
  C.cipherHex s.cipher s.munge data

/-- `decrypt(data)` — decrypt with the configured `cipher` and `munge`. -/
def decrypt (C : CryptoLib) (s : State) (data : String) : String :=
  C.decipherHex s.cipher s.munge data

/-- `presave()` — throws when the file is locked ("Process ID … has a
lock on … Cannot save."); otherwise proceeds.  The subsequent
`mkdirp(dirname(dbfile))` call only creates directories — it is modelled
on its own filesystem component in the `mkdirp` section below and
touches neither the lock state nor the target file's content, so it is
elided from the proxy-state transition. -/
def presave (s : State) : Except String State :=
  if locked s then
    Except.error ("Process ID has a lock on " ++ s.dbfile ++ ". Cannot save.")
  else
    Except.ok s

/-- The bytes `writeToDisk` hands to `fs.writeFileSync`: the content,
encrypted first when `encryptdata` is set and an `encryptionKey` is
configured (`if (encryptdata && this.munge)`). -/
def writePayload (C : CryptoLib) (s : State) (content : String)
    (encryptdata : Bool) : String :=
  if encryptdata && s.munge.isSome then encrypt C s content else content

/-- `writeToDisk(content, encryptdata = true)` — locks first when
autolock is on and the file is not already locked; optionally encrypts;
overwrites the file via `fs.writeFileSync`; unlocks afterwards when
autolock is on and the file is (still) locked. -/
def writeToDisk (C : CryptoLib) (s : State) (content : String)
    (encryptdata : Bool) : State :=
  let s1 := if s.autolock && !locked s then lock s else s
  let data := writePayload C s1 content encryptdata
  let s2 := { s1 with content := some data, trace := s1.trace ++ [.wrote data] }
  if s2.autolock && locked s2 then unlock s2 else s2

/-- `readFromDisk(decrypt = true)` — returns `null` when the target file
does not exist or is not readable; otherwise reads the whole file and,
when decryption is requested and a key is configured, decrypts it.  The
inner `else` branch (the "Unrecognized or encrypted format" throw) is
kept exactly as in the source. -/
def readFromDisk (C : CryptoLib) (s : State) (dec : Bool) :
    Except String (Option String) :=
  match s.content with
  | none => Except.ok none
  | some content =>
    if dec && s.munge.isSome then
      if s.munge.isSome then
        Except.ok (some (decrypt C s content))
      else
        Except.error ("Unrecognized or encrypted format detected. " ++
          "If the file is encrypted, the proxy must have an encryptionKey configured..")
    else
      Except.ok (some content)

/-- The save pipeline of §4.3 around this base class: `presave` gate,
then `writeToDisk` (serialisation itself is deferred to subclasses).  A
`presave` throw propagates to the caller with the proxy state — in
particular the target file's content — exactly as it was. -/
def trySave (C : CryptoLib) (s : State) (content : String) :
    State × Option String :=
  match presave s with
  | Except.error e => (s, some e)
  | Except.ok s1 => (writeToDisk C s1 content true, none)

/-- The file is locked and the lock marker was created by a different
process. -/
def lockedByOther (s : State) : Bool :=
  s.marker = some Holder.other

/-! ## `mkdirp` on a directory-tree model

A directory path is its list of components below the root; `[]` is the
filesystem root.  `NGN.util.pathReadable` is membership in the list of
readable directories; `path.join(dir, '..')` drops the last component
(the root's parent is the root itself); `fs.mkdirSync` adds the
directory.  The source's `mkdirp` is recursive with no structural
decrease, so it is embedded with explicit fuel: `none` means the fuel
ran out, and a result that is `none` for *every* fuel is exactly a
non-terminating run of the source. -/

abbrev DirPath := List String

abbrev DirFS := List DirPath

/-- `NGN.util.pathReadable` on the directory model. -/
def pathReadable (fs : DirFS) (p : DirPath) : Bool :=
  decide (p ∈ fs)

/-- `path.join(dir, '..')`. -/
def parentDir (p : DirPath) : DirPath :=
  p.dropLast

/-- `fs.mkdirSync(dir)`. -/
def mkdirSync (fs : DirFS) (p : DirPath) : DirFS :=
  p :: fs

/-- `mkdirp(dir)` with fuel: return if `dir` is readable; create it if
its parent is readable; otherwise recurse on the parent and then on
`dir` again. -/
def mkdirp : Nat → DirFS → DirPath → Option DirFS
  | 0, _, _ => none
  | fuel + 1, fs, dir =>
    if pathReadable fs dir then some fs
    else if pathReadable fs (parentDir dir) then some (mkdirSync fs dir)
    else
      match mkdirp fuel fs (parentDir dir) with
      | none => none
      | some fs1 => mkdirp fuel fs1 dir

/-- The ancestor of `p` that lies `k` levels up (`k = 0` is `p` itself;
beyond the root it stays the root). -/
def ancestorAt : Nat → DirPath → DirPath
  | 0, p => p
  | k + 1, p => ancestorAt k (parentDir p)

/-! ## Concrete instances used by witnesses -/

/-- A freshly constructed proxy on an existing, unlocked file, with the
default configuration (`autolock = true`, `hideLockedFile = true`) and
no encryption key. -/
def baseState : State :=
  { dbfile := "/data/db.txt", munge := none, cipher := "aes-256-cbc",
    autolock := true, hidelock := true, release := false,
    lockowner := false, marker := none, content := some "prior",
    trace := [] }

/-- The state right after this process acquired the lock: marker made by
`self`, `_lockowner` set, release capability held. -/
def ownerState : State :=
  { baseState with marker := some Holder.self, lockowner := true, release := true }

/-- The state seen while a different process holds the lock. -/
def otherLockedState : State :=
  { baseState with marker := some Holder.other }

/-- A crypto library instance whose two pipelines are mutually inverse
(trivially), used to discharge the node-crypto contract in witnesses. -/
def idCrypto : CryptoLib :=
  { cipherHex := fun _ _ d => d, decipherHex := fun _ _ d => d }

/-! ## Basic lemmas about the lock operations -/

theorem lock_content (s : State) : (lock s).content = s.content := by
  simp only [lock, hide, emit]
  split_ifs <;> rfl

theorem lock_munge (s : State) : (lock s).munge = s.munge := by
  simp only [lock, hide, emit]
  split_ifs <;> rfl

theorem lock_cipher (s : State) : (lock s).cipher = s.cipher := by
  simp only [lock, hide, emit]
  split_ifs <;> rfl

theorem lock_autolock (s : State) : (lock s).autolock = s.autolock := by
  simp only [lock, hide, emit]
  split_ifs <;> rfl

theorem locked_lock (s : State) : locked (lock s) = true := by
  simp only [lock, hide, emit, locked]
  split_ifs with h
  · exact h
  all_goals rfl

theorem unlock_content (s : State) : (unlock s).content = s.content := by
  simp only [unlock, emit]
  split_ifs <;> rfl

/-! ## Claim theorems -/

/-- C1: if at the start of a save the target file is locked by a
different process owner, `presave()` raises the fatal "Cannot save."
error and the save pipeline aborts before any write is attempted — the
proxy state, and in particular the file's prior content, is returned
unmodified. -/
theorem presave_locked_by_other_aborts (C : CryptoLib) (s : State) (c : String)
    (h : lockedByOther s = true) :
    presave s
      = Except.error ("Process ID has a lock on " ++ s.dbfile ++ ". Cannot save.")
    ∧ trySave C s c
      = (s, some ("Process ID has a lock on " ++ s.dbfile ++ ". Cannot save."))
    ∧ (trySave C s c).1.content = s.content := by
  have hm : s.marker = some Holder.other := by
    simpa [lockedByOther] using h
  have hl : locked s = true := by simp [locked, hm]
  have hp : presave s
      = Except.error ("Process ID has a lock on " ++ s.dbfile ++ ". Cannot save.") := by
    simp [presave, hl]
  exact ⟨hp, by simp [trySave, hp], by simp [trySave, hp]⟩

theorem presave_locked_by_other_aborts_witness :
    lockedByOther otherLockedState = true
    ∧ (presave otherLockedState
        = Except.error ("Process ID has a lock on " ++ otherLockedState.dbfile
            ++ ". Cannot save.")
      ∧ trySave idCrypto otherLockedState "new"
        = (otherLockedState,
           some ("Process ID has a lock on " ++ otherLockedState.dbfile
             ++ ". Cannot save."))
      ∧ (trySave idCrypto otherLockedState "new").1.content
        = otherLockedState.content) :=
  ⟨rfl, presave_locked_by_other_aborts idCrypto otherLockedState "new" rfl⟩

/-- C2 (counterexample): in the canonical owner state — this process made
the marker, `_lockowner` is set and a release capability is held —
`unlock()` does *not* clear ownership: `isLockOwner` is still `true`
afterwards, refuting "clears ownership so that isLockOwner is false
afterwards". -/
theorem unlock_owner_keeps_ownership_cex :
    locked ownerState = true ∧ isLockOwner ownerState = true
    ∧ ownerState.release = true
    ∧ isLockOwner (unlock ownerState) = true :=
  ⟨rfl, rfl, rfl, rfl⟩

/-- C2 (amended): when this process owns the lock (marker created by
`self`, `_lockowner` set, release capability held), `unlock()` invokes
the release capability — removing the lock marker — clears the stored
release handle and emits the `fileunlock` notification, but it does not
clear ownership: `isLockOwner` remains `true` afterwards. -/
theorem unlock_owner_releases (s : State)
    (hm : s.marker = some Holder.self) (ho : s.lockowner = true)
    (hr : s.release = true) :
    unlock s = { s with marker := none, release := false,
                        trace := s.trace ++ [Action.fileunlock] }
    ∧ locked (unlock s) = false
    ∧ isLockOwner (unlock s) = true := by
  have hl : locked s = true := by simp [locked, hm]
  have h1 : unlock s = { s with marker := none, release := false, trace := s.trace ++ [Action.fileunlock] } := by
    simp [unlock, emit, hl, isLockOwner, ho, hr]
  exact ⟨h1, by simp [h1, locked], by simp [h1, isLockOwner, ho]⟩

theorem unlock_owner_releases_witness :
    unlock ownerState
      = { ownerState with marker := none, release := false,
                          trace := ownerState.trace ++ [Action.fileunlock] }
    ∧ locked (unlock ownerState) = false
    ∧ isLockOwner (unlock ownerState) = true :=
  unlock_owner_releases ownerState rfl rfl rfl

/-- C3: when the file is locked but this process is not the owner,
`unlock()` only signals the non-fatal warning: the resulting state is
the input state with a `warned` action appended — the release capability
is never invoked, and marker, release handle and content are untouched. -/
theorem unlock_nonowner_noop (s : State)
    (hl : locked s = true) (ho : isLockOwner s = false) :
    unlock s = emit s Action.warned
    ∧ locked (unlock s) = locked s
    ∧ (unlock s).marker = s.marker
    ∧ (unlock s).release = s.release
    ∧ (unlock s).content = s.content := by
  have h1 : unlock s = emit s Action.warned := by
    simp [unlock, hl, ho]
  refine ⟨h1, ?_, ?_, ?_, ?_⟩ <;> simp [h1, emit, locked]

theorem unlock_nonowner_noop_witness :
    locked otherLockedState = true ∧ isLockOwner otherLockedState = false
    ∧ (unlock otherLockedState = emit otherLockedState Action.warned
      ∧ locked (unlock otherLockedState) = locked otherLockedState
      ∧ (unlock otherLockedState).marker = otherLockedState.marker
      ∧ (unlock otherLockedState).release = otherLockedState.release
      ∧ (unlock otherLockedState).content = otherLockedState.content) :=
  ⟨rfl, rfl, unlock_nonowner_noop otherLockedState rfl rfl⟩

/-- C4 (counterexample): a state that is not locked but still holds a
release capability — after `unlock()` the stored release handle is
*not* cleared, refuting "after every call to unlock(), regardless of
whether the file was locked …, the held release capability is cleared":
the `!this.locked` early return skips the `this._release = null` line. -/
theorem unlock_keeps_release_cex :
    locked { baseState with release := true } = false
    ∧ ({ baseState with release := true } : State).release = true
    ∧ (unlock { baseState with release := true }).release = true :=
  ⟨rfl, rfl, rfl⟩

/-- C4 (amended): `unlock()` clears the stored release handle exactly
when it passes both early-return guards, i.e. when the file is locked
and this process is the owner; on the not-locked and not-owner early
returns the handle is left unchanged. -/
theorem unlock_release_clearing (s : State) :
    (unlock s).release
      = (if locked s && isLockOwner s then false else s.release) := by
  by_cases hl : locked s = true
  · by_cases ho : isLockOwner s = true
    · simp [unlock, emit, hl, ho]
    · simp only [Bool.not_eq_true] at ho
      simp [unlock, emit, hl, ho]
  · simp only [Bool.not_eq_true] at hl
    simp [unlock, emit, hl]

/-- C8 (counterexample): with no encryption key configured and a
readable target file, `readFromDisk(true)` returns the raw content
instead of raising the "Unrecognized or encrypted format" error: the
outer `decrypt && this.munge` guard already fails, so the inner error
branch is unreachable. -/
theorem readFromDisk_nokey_cex :
    baseState.munge = none ∧ baseState.content = some "prior"
    ∧ readFromDisk idCrypto baseState true = Except.ok (some "prior") :=
  ⟨rfl, rfl, rfl⟩

/-- C8 (amended): when no encryption key is configured, `readFromDisk`
with `decrypt = true` never raises: it returns the file content exactly
as stored (raw bytes), the decryption step and the error branch both
being skipped by the `decrypt && this.munge` guard. -/
theorem readFromDisk_nokey_returns_raw (C : CryptoLib) (s : State)
    (h : s.munge = none) :
    readFromDisk C s true = Except.ok s.content := by
  cases hc : s.content <;> simp [readFromDisk, hc, h]

theorem readFromDisk_nokey_returns_raw_witness :
    ({ baseState with content := some "rawbytes" } : State).munge = none
    ∧ readFromDisk idCrypto { baseState with content := some "rawbytes" } true
      = Except.ok ({ baseState with content := some "rawbytes" } : State).content :=
  ⟨rfl, readFromDisk_nokey_returns_raw idCrypto
    { baseState with content := some "rawbytes" } rfl⟩

/-- C9: when the target file does not exist or is not readable,
`readFromDisk` returns `null` without raising, for any value of the
decrypt flag. -/
theorem readFromDisk_missing_returns_null (C : CryptoLib) (s : State)
    (d : Bool) (h : s.content = none) :
    readFromDisk C s d = Except.ok none := by
  simp [readFromDisk, h]

theorem readFromDisk_missing_returns_null_witness :
    ({ baseState with content := none } : State).content = none
    ∧ readFromDisk idCrypto { baseState with content := none } true
      = Except.ok none
    ∧ readFromDisk idCrypto { baseState with content := none } false
      = Except.ok none :=
  ⟨rfl,
   readFromDisk_missing_returns_null idCrypto
     { baseState with content := none } true rfl,
   readFromDisk_missing_returns_null idCrypto
     { baseState with content := none } false rfl⟩

/-- C5: `lock()` is idempotent — on any already-locked state (whatever
the owner) it returns the state unchanged; a second call in succession
is always a no-op; after the double call the file is locked, ownership
is kept when this process already had it, and the hide side effect has
not been duplicated (same number of `hid` actions as after one call). -/
theorem lock_idempotent (s : State) :
    (locked s = true → lock s = s)
    ∧ lock (lock s) = lock s
    ∧ locked (lock (lock s)) = true
    ∧ (isLockOwner s = true → isLockOwner (lock (lock s)) = true)
    ∧ (lock (lock s)).trace.count Action.hid
        = (lock s).trace.count Action.hid := by
  have hnoop : ∀ t : State, locked t = true → lock t = t := by
    intro t ht
    simp [lock, ht]
  have h2 : lock (lock s) = lock s := hnoop _ (locked_lock s)
  refine ⟨hnoop s, h2, by rw [h2]; exact locked_lock s, ?_, by rw [h2]⟩
  intro ho
  rw [h2]
  by_cases hl : locked s = true
  · rw [hnoop s hl]
    exact ho
  · simp only [lock, hide, emit, isLockOwner, hl, if_false]
    split_ifs <;> first | rfl | exact ho

theorem lock_idempotent_witness :
    lock ownerState = ownerState
    ∧ lock (lock ownerState) = lock ownerState
    ∧ locked (lock (lock ownerState)) = true
    ∧ isLockOwner (lock (lock ownerState)) = true
    ∧ (lock (lock ownerState)).trace.count Action.hid
        = (lock ownerState).trace.count Action.hid :=
  ⟨(lock_idempotent ownerState).1 rfl,
   (lock_idempotent ownerState).2.1,
   (lock_idempotent ownerState).2.2.1,
   (lock_idempotent ownerState).2.2.2.1 rfl,
   (lock_idempotent ownerState).2.2.2.2⟩

/-- C7: for any crypto library satisfying node's documented contract —
`createDecipher` with the same algorithm and password inverts
`createCipher` — the proxy's `decrypt` undoes its `encrypt` for every
state (the two methods use the same configured `cipher` and `munge`)
and every text. -/
theorem decrypt_encrypt_roundtrip (C : CryptoLib)
    (h : ∀ alg pw x, C.decipherHex alg pw (C.cipherHex alg pw x) = x)
    (s : State) (x : String) :
    decrypt C s (encrypt C s x) = x :=
  h s.cipher s.munge x

theorem decrypt_encrypt_roundtrip_witness :
    decrypt idCrypto baseState (encrypt idCrypto baseState "secret")
      = "secret" :=
  decrypt_encrypt_roundtrip idCrypto (fun _ _ _ => rfl) baseState "secret"

/-! ## `writeToDisk` helper lemmas -/

theorem writePayload_lock (C : CryptoLib) (s : State) (c : String) (e : Bool) :
    writePayload C (lock s) c e = writePayload C s c e := by
  simp [writePayload, encrypt, lock_munge, lock_cipher]

theorem writeFinal_content (a : Bool) (t : State) :
    (if (a && locked t) = true then unlock t else t).content
      = t.content := by
  split_ifs with h
  · exact unlock_content t
  · rfl

theorem writeToDisk_content (C : CryptoLib) (s : State) (c : String) (e : Bool) :
    (writeToDisk C s c e).content = some (writePayload C s c e) := by
  simp only [writeToDisk]
  rw [writeFinal_content]
  split_ifs with h
  · simp [writePayload_lock]
  · rfl

/-- The actions `lock` contributes before it emits `filelock`: the hide
side effect when `hideLockedFile` is enabled (a `warned` action when the
target file is not readable, the `hid` action otherwise), nothing when
it is disabled. -/
def hideEvents (s : State) : List Action :=
  if s.hidelock then
    (if s.content.isNone then [Action.warned] else [Action.hid])
  else []

theorem writeToDisk_trace_protocol (C : CryptoLib) (s : State) (c : String)
    (e : Bool) (ha : s.autolock = true) (hl : locked s = false) :
    (writeToDisk C s c e).trace
      = s.trace ++ hideEvents s
          ++ [Action.filelock,
              Action.wrote (writePayload C s c e), Action.fileunlock]
    ∧ locked (writeToDisk C s c e) = false := by
  obtain ⟨db, mg, ci, au, hi, re, lo, mk, co, tr⟩ := s
  simp only at ha
  subst ha
  simp only [locked] at hl
  cases mk with
  | some h => simp at hl
  | none =>
    constructor
    · cases hi <;> cases co <;>
        simp [writeToDisk, lock, unlock, hide, emit, locked, isLockOwner,
          writePayload, encrypt, hideEvents]
    · cases hi <;> cases co <;>
        simp [writeToDisk, lock, unlock, hide, emit, locked, isLockOwner,
          writePayload, encrypt, hideEvents]

theorem writeToDisk_releases_own_lock (C : CryptoLib) (s : State) (c : String)
    (e : Bool) (ha : s.autolock = true) (hm : s.marker = some Holder.self)
    (ho : s.lockowner = true) (hr : s.release = true) :
    locked (writeToDisk C s c e) = false := by
  obtain ⟨db, mg, ci, au, hi, re, lo, mk, co, tr⟩ := s
  simp only at ha hm ho hr
  subst ha hm ho hr
  simp [writeToDisk, lock, unlock, hide, emit, locked, isLockOwner,
    writePayload, encrypt]

theorem writeToDisk_no_autolock (C : CryptoLib) (s : State) (c : String)
    (e : Bool) (ha : s.autolock = false) :
    writeToDisk C s c e
      = { s with content := some (writePayload C s c e),
                 trace := s.trace ++ [Action.wrote (writePayload C s c e)] } := by
  obtain ⟨db, mg, ci, au, hi, re, lo, mk, co, tr⟩ := s
  simp only at ha
  subst ha
  simp [writeToDisk, lock, unlock, hide, emit, locked, isLockOwner,
    writePayload, encrypt]

/-- C6: `writeToDisk` always replaces the whole file content with the
(optionally encrypted) payload.  With autolock enabled: on every call
that starts unlocked — whatever the hide configuration — the observed
protocol is lock acquisition (its hide side effect and the `filelock`
event) strictly before the write, and the release strictly after the
write, with the file ending unlocked; on a call that starts with this
process holding the lock, the lock is released after the write.  With
autolock disabled, `writeToDisk` neither locks nor unlocks: the state
changes only by the written content and the write action. -/
theorem writeToDisk_autolock_spec (C : CryptoLib) (s : State) (c : String)
    (e : Bool) :
    (writeToDisk C s c e).content = some (writePayload C s c e)
    ∧ (s.autolock = true → locked s = false →
        (writeToDisk C s c e).trace
          = s.trace ++ hideEvents s
              ++ [Action.filelock,
                  Action.wrote (writePayload C s c e), Action.fileunlock]
        ∧ locked (writeToDisk C s c e) = false)
    ∧ (s.autolock = true → s.marker = some Holder.self →
        s.lockowner = true → s.release = true →
        locked (writeToDisk C s c e) = false)
    ∧ (s.autolock = false →
        writeToDisk C s c e
          = { s with content := some (writePayload C s c e),
                     trace := s.trace ++ [Action.wrote (writePayload C s c e)] }) :=
  ⟨writeToDisk_content C s c e,
   fun ha hl => writeToDisk_trace_protocol C s c e ha hl,
   fun ha hm ho hr => writeToDisk_releases_own_lock C s c e ha hm ho hr,
   fun ha => writeToDisk_no_autolock C s c e ha⟩

theorem writeToDisk_autolock_spec_witness :
    (writeToDisk idCrypto baseState "x" true).trace
      = baseState.trace ++ hideEvents baseState
          ++ [Action.filelock,
              Action.wrote (writePayload idCrypto baseState "x" true),
              Action.fileunlock]
    ∧ locked (writeToDisk idCrypto baseState "x" true) = false
    ∧ (writeToDisk idCrypto { baseState with hidelock := false } "x" true).trace
      = ({ baseState with hidelock := false } : State).trace
          ++ hideEvents { baseState with hidelock := false }
          ++ [Action.filelock,
              Action.wrote (writePayload idCrypto
                { baseState with hidelock := false } "x" true),
              Action.fileunlock]
    ∧ locked (writeToDisk idCrypto ownerState "x" true) = false
    ∧ writeToDisk idCrypto { baseState with autolock := false } "x" true
        = { ({ baseState with autolock := false } : State) with
              content := some (writePayload idCrypto
                { baseState with autolock := false } "x" true),
              trace := ({ baseState with autolock := false } : State).trace
                ++ [Action.wrote (writePayload idCrypto
                      { baseState with autolock := false } "x" true)] } :=
  ⟨((writeToDisk_autolock_spec idCrypto baseState "x" true).2.1 rfl rfl).1,
   ((writeToDisk_autolock_spec idCrypto baseState "x" true).2.1 rfl rfl).2,
   ((writeToDisk_autolock_spec idCrypto { baseState with hidelock := false }
      "x" true).2.1 rfl rfl).1,
   (writeToDisk_autolock_spec idCrypto ownerState "x" true).2.2.1
      rfl rfl rfl rfl,
   (writeToDisk_autolock_spec idCrypto { baseState with autolock := false }
      "x" true).2.2.2 rfl⟩

/-! ## `mkdirp` lemmas -/

theorem pathReadable_mkdirSync (fs : DirFS) (p : DirPath) :
    pathReadable (mkdirSync fs p) p = true := by
  simp [pathReadable, mkdirSync]

theorem ancestorAt_eq_nil_of_le :
    ∀ (k : Nat) (dir : DirPath), dir.length ≤ k → ancestorAt k dir = [] := by
  intro k
  induction k with
  | zero =>
    intro dir h
    have hd : dir = [] := List.length_eq_zero.mp (by omega)
    rw [hd]
    rfl
  | succ k ih =>
    intro dir h
    simp only [ancestorAt]
    refine ih _ ?_
    simp only [parentDir, List.length_dropLast]
    omega

theorem mkdirp_of_parent (fs : DirFS) (dir : DirPath) (fuel : Nat)
    (h : pathReadable fs (parentDir dir) = true) (hf : 1 ≤ fuel) :
    ∃ fs1, mkdirp fuel fs dir = some fs1 ∧ pathReadable fs1 dir = true := by
  cases fuel with
  | zero => omega
  | succ n =>
    by_cases h0 : pathReadable fs dir = true
    · refine ⟨fs, ?_, h0⟩
      simp only [mkdirp]
      rw [if_pos h0]
    · refine ⟨mkdirSync fs dir, ?_, pathReadable_mkdirSync fs dir⟩
      simp only [mkdirp]
      rw [if_neg h0, if_pos h]

theorem mkdirp_terminates :
    ∀ (k : Nat) (dir : DirPath) (fs : DirFS) (fuel : Nat),
      pathReadable fs (ancestorAt k dir) = true → k + 1 ≤ fuel →
      ∃ fs1, mkdirp fuel fs dir = some fs1 ∧ pathReadable fs1 dir = true := by
  intro k
  induction k with
  | zero =>
    intro dir fs fuel h hf
    have hd : pathReadable fs dir = true := h
    cases fuel with
    | zero => omega
    | succ n =>
      refine ⟨fs, ?_, hd⟩
      simp only [mkdirp]
      rw [if_pos hd]
  | succ k ih =>
    intro dir fs fuel h hf
    cases fuel with
    | zero => omega
    | succ n =>
      by_cases h0 : pathReadable fs dir = true
      · refine ⟨fs, ?_, h0⟩
        simp only [mkdirp]
        rw [if_pos h0]
      · by_cases h1 : pathReadable fs (parentDir dir) = true
        · refine ⟨mkdirSync fs dir, ?_, pathReadable_mkdirSync fs dir⟩
          simp only [mkdirp]
          rw [if_neg h0, if_pos h1]
        · obtain ⟨fs1, heq, hread⟩ :=
            ih (parentDir dir) fs n h (by omega)
          obtain ⟨fs2, heq2, hread2⟩ :=
            mkdirp_of_parent fs1 dir n hread (by omega)
          refine ⟨fs2, ?_, hread2⟩
          simp only [mkdirp]
          rw [if_neg h0, if_neg h1, heq]
          exact heq2

theorem mkdirp_none :
    ∀ (fuel : Nat) (dir : DirPath) (fs : DirFS),
      (∀ k, pathReadable fs (ancestorAt k dir) = false) →
      mkdirp fuel fs dir = none := by
  intro fuel
  induction fuel with
  | zero => intro dir fs h; rfl
  | succ n ih =>
    intro dir fs h
    have h0 : pathReadable fs dir = false := h 0
    have h1 : pathReadable fs (parentDir dir) = false := h 1
    simp only [mkdirp]
    rw [if_neg (by simp [h0]), if_neg (by simp [h1]),
      ih (parentDir dir) fs (fun k => h (k + 1))]

/-- C10: when some ancestor of `dir` (including `dir` itself and the
root) is readable, the `mkdirp` recursion terminates — any fuel of at
least one more than the component count of `dir` is never exhausted —
and on return `dir` is readable.  When no ancestor up to and including
the root is readable, the recursion never terminates: the run returns
`none` (fuel exhausted) for every amount of fuel. -/
theorem mkdirp_termination_spec (fs : DirFS) (dir : DirPath) :
    ((∃ k, pathReadable fs (ancestorAt k dir) = true) →
      ∀ fuel, dir.length + 1 ≤ fuel →
        ∃ fs1, mkdirp fuel fs dir = some fs1 ∧ pathReadable fs1 dir = true)
    ∧ ((∀ k, pathReadable fs (ancestorAt k dir) = false) →
      ∀ fuel, mkdirp fuel fs dir = none) := by
  constructor
  · rintro ⟨k, hk⟩ fuel hf
    by_cases hkd : k ≤ dir.length
    · exact mkdirp_terminates k dir fs fuel hk (by omega)
    · have h1 : ancestorAt k dir = [] :=
        ancestorAt_eq_nil_of_le k dir (by omega)
      have h2 : ancestorAt dir.length dir = [] :=
        ancestorAt_eq_nil_of_le dir.length dir le_rfl
      rw [h1] at hk
      refine mkdirp_terminates dir.length dir fs fuel ?_ (by omega)
      rw [h2]
      exact hk
  · intro h fuel
    exact mkdirp_none fuel dir fs h

theorem mkdirp_termination_spec_witness :
    (∃ fs1, mkdirp 3 [([] : DirPath)] ["a", "b"] = some fs1
      ∧ pathReadable fs1 ["a", "b"] = true)
    ∧ mkdirp 7 [] ["a"] = none :=
  ⟨(mkdirp_termination_spec [[]] ["a", "b"]).1 ⟨2, rfl⟩ 3 (by decide),
   (mkdirp_termination_spec [] ["a"]).2 (fun _ => rfl) 7⟩

end FileProxy
